import Mathlib

/-!
# Sonacatworld agent core — shallow embedding

A shallow embedding of the agent decision and state-coordination core of the
Sonacatworld repository, translated from the TypeScript sources:

* `src/src/systems/character/Character.ts` — the `Character` class (vitals,
  inventory, movement, death);
* `src/unnamed/part_000` — the character-system design skeleton (`Character.eat`
  on items, `Character.move`, the `Relationship` class);
* `src/unnamed/part_002` — `LLMEngine.parseDecision` (decision validation and
  fallback);
* `src/unnamed/part_003` — the mining resource pool (`attemptMine`,
  `calculateDynamicProbabilities`, `ResourcePoolManager.refreshPool`);
* `src/unnamed/part_004` and `src/docs/systems/economy.md` — the `Shop` class
  (buy/sell transactions and price tables).

JavaScript `number` is modelled by `ℚ` (the quantities the claims concern are
exact decimal arithmetic, far from any floating-point edge); item counts are
`ℕ`.  A JavaScript `Map` is modelled by an association list with unique keys,
`lookup-or-0` reads, in-place replacement writes, and key deletion.
-/

/-! ## Association-map helpers (JS `Map` with a default read) -/

/-- Embeds `m.get(k) ?? d` — read with default (JS `map.get(k) || 0` / `map.get(k)!`). -/
def assocGetD {α β : Type} [DecidableEq α] (d : β) (m : List (α × β)) (k : α) : β :=
  match m with
  | [] => d
  | (k', v) :: rest => if k' = k then v else assocGetD d rest k

/-- Embeds `m.set(k, v)` — replace the binding of `k` in place, or append it. -/
def assocSet {α β : Type} [DecidableEq α] (m : List (α × β)) (k : α) (v : β) :
    List (α × β) :=
  match m with
  | [] => [(k, v)]
  | (k', v') :: rest => if k' = k then (k, v) :: rest else (k', v') :: assocSet rest k v

/-- Embeds `m.delete(k)` — remove the binding of `k` (unique-keyed maps). -/
def assocDel {α β : Type} [DecidableEq α] (m : List (α × β)) (k : α) : List (α × β) :=
  m.filter (fun kv => kv.1 ≠ k)

theorem assocGetD_assocSet_self {α β : Type} [DecidableEq α]
    (d : β) (m : List (α × β)) (k : α) (v : β) :
    assocGetD d (assocSet m k v) k = v := by
  induction m with
  | nil => simp [assocSet, assocGetD]
  | cons kv rest ih =>
    by_cases h : kv.1 = k
    · simp [assocSet, assocGetD, h]
    · simp only [assocSet, assocGetD, h, if_false]
      exact ih

theorem assocGetD_assocSet_ne {α β : Type} [DecidableEq α]
    (d : β) (m : List (α × β)) (k k' : α) (v : β) (h : k' ≠ k) :
    assocGetD d (assocSet m k v) k' = assocGetD d m k' := by
  induction m with
  | nil => simp [assocSet, assocGetD, Ne.symm h]
  | cons kv rest ih =>
    obtain ⟨a, b⟩ := kv
    by_cases hk : a = k
    · subst hk
      simp [assocSet, assocGetD, Ne.symm h]
    · by_cases hk' : a = k'
      · simp [assocSet, assocGetD, hk, hk', h]
      · simp only [assocSet, assocGetD, hk, hk', if_false]
        exact ih

theorem assocGetD_assocDel_self {α β : Type} [DecidableEq α]
    (d : β) (m : List (α × β)) (k : α) :
    assocGetD d (assocDel m k) k = d := by
  induction m with
  | nil => simp [assocDel, assocGetD]
  | cons kv rest ih =>
    by_cases h : kv.1 = k
    · simpa [assocDel, assocGetD, h] using ih
    · simpa [assocDel, assocGetD, h] using ih

/-! ## Locations — `enum Location` (Character.ts lines 5–13) -/

inductive Location where
  | home
  | shop
  | farm
  | fishingSpot
  | mine
  | hall
  | street
deriving DecidableEq

/-- The string value of each `Location` enum member. -/
def Location.key : Location → String
  | .home => "home"
  | .shop => "shop"
  | .farm => "farm"
  | .fishingSpot => "fishing_spot"
  | .mine => "mine"
  | .hall => "hall"
  | .street => "street"

/-! ## Character — `class Character` (Character.ts lines 22–184)

The fields the claims concern.  `id`, `name` and `gender` are opaque identity
data untouched by every operation below and are omitted; `inventory` is the
`Map<string, number>` of item counts. -/

structure Character where
  hunger : ℚ
  money : ℚ
  age : ℚ
  location : Location
  isAlive : Bool
  inventory : List (String × ℕ)
deriving DecidableEq

/-- The constructor state (Character.ts lines 40–55): full defaults
`hunger = initialHunger ?? 100`, `money = initialMoney ?? 100`, home, alive,
empty inventory; the randomized initial age is passed explicitly. -/
def mkCharacter (initialAge initialMoney initialHunger : ℚ) : Character :=
  { hunger := initialHunger
    money := initialMoney
    age := initialAge
    location := .home
    isAlive := true
    inventory := [] }

/-- Embeds `Character.update(deltaTime)` (Character.ts lines 60–75): early return when
dead; hunger decays `0.5` per `60000` ms floored at `0`; age advances
`deltaTime / 3600000`; `hunger <= 0` triggers `die` (`isAlive = false`,
Character.ts lines 159–162). -/
def Character.update (c : Character) (deltaTime : ℚ) : Character :=
  if c.isAlive = false then c
  else
    let hungerDecay := (1/2) * (deltaTime / 60000)
    let hunger' := max 0 (c.hunger - hungerDecay)
    let age' := c.age + deltaTime / 3600000
    if hunger' ≤ 0 then
      { c with hunger := hunger', age := age', isAlive := false }
    else
      { c with hunger := hunger', age := age' }

/-- Embeds `Character.eat(hungerRestore)` (Character.ts lines 93–96):
`hunger = min(100, hunger + hungerRestore)`. -/
def Character.eat (c : Character) (hungerRestore : ℚ) : Character :=
  { c with hunger := min 100 (c.hunger + hungerRestore) }

/-- Embeds `Character.earnMoney(amount)` (Character.ts lines 101–104). -/
def Character.earnMoney (c : Character) (amount : ℚ) : Character :=
  { c with money := c.money + amount }

/-- Embeds `Character.spendMoney(amount)` (Character.ts lines 109–118): fails (state
unchanged) when `money < amount`, otherwise deducts. -/
def Character.spendMoney (c : Character) (amount : ℚ) : Character × Bool :=
  if c.money < amount then (c, false)
  else ({ c with money := c.money - amount }, true)

/-- Embeds `Character.addItem(itemType, quantity)` (Character.ts lines 123–126). -/
def Character.addItem (c : Character) (itemType : String) (quantity : ℕ) : Character :=
  { c with
    inventory :=
      assocSet c.inventory itemType (assocGetD 0 c.inventory itemType + quantity) }

/-- Embeds `Character.removeItem(itemType, quantity)` (Character.ts lines 131–146):
fails (state unchanged) when the held count is below `quantity`; removes the
map entry entirely when the remaining count is `0`. -/
def Character.removeItem (c : Character) (itemType : String) (quantity : ℕ) :
    Character × Bool :=
  let current := assocGetD 0 c.inventory itemType
  if current < quantity then (c, false)
  else
    let remaining := current - quantity
    if remaining = 0 then
      ({ c with inventory := assocDel c.inventory itemType }, true)
    else
      ({ c with inventory := assocSet c.inventory itemType remaining }, true)

/-- Embeds `Character.hasItem(itemType, quantity)` (Character.ts lines 151–154). -/
def Character.hasItem (c : Character) (itemType : String) (quantity : ℕ) : Bool :=
  quantity ≤ assocGetD 0 c.inventory itemType

/-! ## C1 — the valid-operation model over `Character` -/

/-- One valid call against a `Character` (the operations named by the spec's
invariant: `update`/advanceTime, `eat`, `earnMoney`, `spendMoney`, `addItem`,
`removeItem`).  Fallible operations contribute their post-state. -/
inductive Op where
  | update (deltaTime : ℚ)
  | eat (hungerRestore : ℚ)
  | earnMoney (amount : ℚ)
  | spendMoney (amount : ℚ)
  | addItem (itemType : String) (quantity : ℕ)
  | removeItem (itemType : String) (quantity : ℕ)

/-- Validity of an operation: elapsed time and money/hunger deltas are
non-negative (item restore values and traded amounts are non-negative in every
catalog of the repository). -/
def Op.valid : Op → Prop
  | .update deltaTime => 0 ≤ deltaTime
  | .eat hungerRestore => 0 ≤ hungerRestore
  | .earnMoney amount => 0 ≤ amount
  | .spendMoney amount => 0 ≤ amount
  | .addItem _ _ => True
  | .removeItem _ _ => True

/-- Apply one operation to a character. -/
def applyOp (c : Character) : Op → Character
  | .update deltaTime => c.update deltaTime
  | .eat hungerRestore => c.eat hungerRestore
  | .earnMoney amount => c.earnMoney amount
  | .spendMoney amount => (c.spendMoney amount).1
  | .addItem itemType quantity => c.addItem itemType quantity
  | .removeItem itemType quantity => (c.removeItem itemType quantity).1

/-- The vitals invariant of the spec: `hunger ∈ [0, 100]` and `money ≥ 0`. -/
def VitalsOK (c : Character) : Prop :=
  0 ≤ c.hunger ∧ c.hunger ≤ 100 ∧ 0 ≤ c.money

theorem vitals_step (c : Character) (op : Op) (hc : VitalsOK c) (hop : op.valid) :
    VitalsOK (applyOp c op) := by
  obtain ⟨h0, h100, hm⟩ := hc
  cases op with
  | update deltaTime =>
    simp only [applyOp, Character.update, Op.valid] at *
    by_cases halive : c.isAlive = false
    · simp only [halive, if_true]
      exact ⟨h0, h100, hm⟩
    · simp only [halive, if_false]
      set hunger' := max 0 (c.hunger - 1/2 * (deltaTime / 60000)) with hdef
      have hge : 0 ≤ hunger' := le_max_left 0 _
      have hle : hunger' ≤ 100 := by
        rw [hdef]
        apply max_le (by norm_num)
        have : 0 ≤ 1/2 * (deltaTime / 60000) := by positivity
        linarith
      by_cases hdie : hunger' ≤ 0
      · simp only [hdie, if_true]
        exact ⟨hge, hle, hm⟩
      · simp only [hdie, if_false]
        exact ⟨hge, hle, hm⟩
  | eat hungerRestore =>
    simp only [applyOp, Character.eat, Op.valid] at *
    refine ⟨le_min (by norm_num) (by linarith), min_le_left _ _, hm⟩
  | earnMoney amount =>
    simp only [applyOp, Character.earnMoney, Op.valid] at *
    exact ⟨h0, h100, show (0:ℚ) ≤ c.money + amount by linarith⟩
  | spendMoney amount =>
    simp only [applyOp, Character.spendMoney, Op.valid] at *
    by_cases hlt : c.money < amount
    · simp only [hlt, if_true]
      exact ⟨h0, h100, hm⟩
    · simp only [hlt, if_false]
      push_neg at hlt
      exact ⟨h0, h100, show (0:ℚ) ≤ c.money - amount by linarith⟩
  | addItem itemType quantity =>
    simp only [applyOp, Character.addItem]
    exact ⟨h0, h100, hm⟩
  | removeItem itemType quantity =>
    simp only [applyOp, Character.removeItem]
    by_cases hlt : assocGetD 0 c.inventory itemType < quantity
    · simp only [hlt, if_true]
      exact ⟨h0, h100, hm⟩
    · by_cases hrem : assocGetD 0 c.inventory itemType - quantity = 0
      · simp only [hlt, hrem, if_false, if_true]
        exact ⟨h0, h100, hm⟩
      · simp only [hlt, hrem, if_false]
        exact ⟨h0, h100, hm⟩

theorem vitals_run (c : Character) (ops : List Op) (hc : VitalsOK c)
    (hops : ∀ op ∈ ops, op.valid) : VitalsOK (ops.foldl applyOp c) := by
  induction ops generalizing c with
  | nil => exact hc
  | cons op rest ih =>
    simp only [List.foldl_cons]
    exact ih (applyOp c op) (vitals_step c op hc (hops op (List.mem_cons_self op rest))) 
      (fun o ho => hops o (List.mem_cons_of_mem _ ho))

/-- C1. For every agent satisfying the vitals invariant and every sequence
of valid operations (`update`/advanceTime with non-negative elapsed time,
`eat`, `earnMoney`, `spendMoney`, `addItem`, `removeItem`), the agent's hunger
remains within `[0, 100]` and its money remains `≥ 0` at every intermediate
state (i.e., after every prefix of the sequence). -/
theorem character_vitals_invariant (c : Character) (ops : List Op)
    (hc : VitalsOK c) (hops : ∀ op ∈ ops, op.valid) :
    ∀ p, p <+: ops → VitalsOK (p.foldl applyOp c) := by
  intro p hp
  exact vitals_run c p hc (fun op ho => hops op (hp.sublist.subset ho))

/-- Witness for C1: a freshly constructed agent run through a concrete mixed
operation sequence keeps its vitals in range. -/
theorem character_vitals_invariant_witness :
    VitalsOK ([Op.update 60000, Op.earnMoney 20, Op.addItem "crop_wheat" 2,
      Op.eat 15, Op.spendMoney 130, Op.removeItem "crop_wheat" 1].foldl applyOp
      (mkCharacter 20 100 100)) :=
  character_vitals_invariant (mkCharacter 20 100 100)
    [Op.update 60000, Op.earnMoney 20, Op.addItem "crop_wheat" 2,
      Op.eat 15, Op.spendMoney 130, Op.removeItem "crop_wheat" 1]
    (by refine ⟨by norm_num [mkCharacter], by norm_num [mkCharacter], by norm_num [mkCharacter]⟩)
    (by intro op hop
        fin_cases hop <;> simp [Op.valid])
    _ (List.prefix_refl _)

/-! ## C2 — hunger decay to death -/

/-- A step of `Character.update` on a dead character is the identity (the early
`if (!this.isAlive) return`). -/
theorem update_dead (c : Character) (d : ℚ) (hdead : c.isAlive = false) :
    Character.update c d = c := by
  simp [Character.update, hdead]

/-- A step of `Character.update` on a live character whose hunger strictly
exceeds the decay `d / 120000` keeps it alive and decays hunger linearly. -/
theorem update_alive_step (c : Character) (d : ℚ) (halive : c.isAlive = true)
    (h : d / 120000 < c.hunger) :
    Character.update c d =
      { c with hunger := c.hunger - d / 120000, age := c.age + d / 3600000 } := by
  have h1 : max 0 (c.hunger - 1/2 * (d / 60000)) = c.hunger - d / 120000 := by
    have h2 : (1:ℚ)/2 * (d / 60000) = d / 120000 := by ring
    rw [h2, max_eq_right (by linarith)]
  simp only [Character.update, halive]
  rw [if_neg (by simp), h1, if_neg (by linarith)]

/-- A step of `Character.update` on a live character whose hunger does not
exceed the decay kills it (`die`, Character.ts lines 159–162). -/
theorem update_death_step (c : Character) (d : ℚ) (halive : c.isAlive = true)
    (h : c.hunger - d / 120000 ≤ 0) :
    Character.update c d =
      { c with hunger := max 0 (c.hunger - d / 120000),
               age := c.age + d / 3600000, isAlive := false } := by
  have h1 : max 0 (c.hunger - 1/2 * (d / 60000)) = max 0 (c.hunger - d / 120000) := by
    have h2 : (1:ℚ)/2 * (d / 60000) = d / 120000 := by ring
    rw [h2]
  simp only [Character.update, halive]
  rw [if_neg (by simp), h1, if_pos (max_le (le_refl 0) h)]

/-- Running updates whose total decay stays strictly below the starting hunger
keeps the character alive, with exactly linear hunger decay. -/
theorem update_alive_run (ds : List ℚ) : ∀ c : Character, c.isAlive = true →
    (∀ d ∈ ds, 0 ≤ d) → ds.sum / 120000 < c.hunger →
    (ds.foldl Character.update c).isAlive = true ∧
    (ds.foldl Character.update c).hunger = c.hunger - ds.sum / 120000 := by
  induction ds with
  | nil =>
    intro c halive _ _
    refine ⟨halive, by simp⟩
  | cons d rest ih =>
    intro c halive hpos hsum
    have hd : 0 ≤ d := hpos d (List.mem_cons_self d rest)
    have hrest : ∀ x ∈ rest, 0 ≤ x := fun x hx => hpos x (List.mem_cons_of_mem _ hx)
    have hrsum : 0 ≤ rest.sum := List.sum_nonneg hrest
    have hsum' : (d + rest.sum) / 120000 < c.hunger := by
      simpa [List.sum_cons] using hsum
    have hstep := update_alive_step c d halive (by linarith)
    rw [List.foldl_cons, hstep]
    have := ih { c with hunger := c.hunger - d / 120000, age := c.age + d / 3600000 }
      (by simp [halive]) hrest (by simp; linarith)
    refine ⟨this.1, ?_⟩
    rw [this.2]
    simp [List.sum_cons]
    ring

/-- Running updates of positive lengths whose total decay exactly equals the
starting hunger ends with `hunger = 0` and a dead character. -/
theorem update_run_to_death (ds : List ℚ) : ∀ c : Character, c.isAlive = true →
    (∀ d ∈ ds, 0 < d) → 0 < c.hunger → c.hunger = ds.sum / 120000 →
    (ds.foldl Character.update c).hunger = 0 ∧
    (ds.foldl Character.update c).isAlive = false := by
  induction ds with
  | nil =>
    intro c _ _ hh hsum
    simp only [List.sum_nil] at hsum
    norm_num at hsum
    exact absurd hsum (ne_of_gt hh)
  | cons d rest ih =>
    intro c halive hpos hh hsum
    have hd : 0 < d := hpos d (List.mem_cons_self d rest)
    have hrest : ∀ x ∈ rest, 0 < x := fun x hx => hpos x (List.mem_cons_of_mem _ hx)
    rcases eq_or_ne rest [] with hr | hr
    · subst hr
      have hzero : c.hunger - d / 120000 = 0 := by
        rw [hsum]
        simp [List.sum_cons]
      rw [List.foldl_cons, update_death_step c d halive (le_of_eq hzero)]
      simp [hzero]
    · have hrsum : 0 < rest.sum := List.sum_pos rest hrest hr
      have hsum' : c.hunger = (d + rest.sum) / 120000 := by
        simpa [List.sum_cons] using hsum
      have hstep := update_alive_step c d halive (by rw [hsum']; linarith)
      rw [List.foldl_cons, hstep]
      apply ih
      · simp [halive]
      · exact hrest
      · simp
        rw [hsum']
        linarith
      · simp
        rw [hsum']
        ring

/-- C2. Starting from the constructor state with `hunger = 100`, advancing
game time by 200 game-minutes (`deltaTime` summing to `12000000` ms, decay rate
0.5 per 60000 ms) in positive steps brings hunger to exactly `0` and sets
`isAlive = false` exactly once: the agent is still alive after every proper
prefix of the steps and dead with `hunger = 0` at the end; the transition is
one-way (an update never revives), and after death no further hunger or age
updates occur (`update` is the identity on a dead character). -/
theorem hunger_death_after_200_minutes (initialAge initialMoney : ℚ) (ds : List ℚ)
    (hpos : ∀ d ∈ ds, 0 < d) (hsum : ds.sum = 12000000) :
    ((ds.foldl Character.update (mkCharacter initialAge initialMoney 100)).hunger = 0 ∧
     (ds.foldl Character.update (mkCharacter initialAge initialMoney 100)).isAlive = false)
    ∧ (∀ p, p <+: ds → p ≠ ds →
        (p.foldl Character.update (mkCharacter initialAge initialMoney 100)).isAlive = true)
    ∧ (∀ c : Character, c.isAlive = false → ∀ d, Character.update c d = c)
    ∧ (∀ c : Character, ∀ d, (Character.update c d).isAlive = true → c.isAlive = true) := by
  refine ⟨?_, ?_, fun c hdead d => update_dead c d hdead, ?_⟩
  · apply update_run_to_death ds (mkCharacter initialAge initialMoney 100)
    · rfl
    · exact hpos
    · norm_num [mkCharacter]
    · rw [hsum]
      norm_num [mkCharacter]
  · intro p hp hne
    obtain ⟨t, ht⟩ := hp
    have htne : t ≠ [] := by
      intro h
      exact hne (by simpa [h] using ht)
    have htpos : ∀ x ∈ t, 0 < x := by
      intro x hx
      exact hpos x (by rw [← ht]; exact List.mem_append_right p hx)
    have htsum : 0 < t.sum := List.sum_pos t htpos htne
    have hpsum : p.sum < 12000000 := by
      have : p.sum + t.sum = 12000000 := by
        rw [← hsum, ← ht, List.sum_append]
      linarith
    exact (update_alive_run p (mkCharacter initialAge initialMoney 100) rfl
      (fun d hd => le_of_lt (hpos d (by rw [← ht]; exact List.mem_append_left t hd)))
      (by norm_num [mkCharacter]; linarith)).1
  · intro c d h
    by_cases hal : c.isAlive = true
    · exact hal
    · have hdead : c.isAlive = false := by simpa using hal
      rw [update_dead c d hdead] at h
      exact h

/-- Witness for C2: two 100-minute steps (6000000 ms each) kill the fresh agent,
which is still alive after the first step alone. -/
theorem hunger_death_after_200_minutes_witness :
    (([6000000, 6000000] : List ℚ).foldl Character.update
      (mkCharacter 20 100 100)).isAlive = false ∧
    (([6000000] : List ℚ).foldl Character.update
      (mkCharacter 20 100 100)).isAlive = true := by
  have h := hunger_death_after_200_minutes 20 100 [6000000, 6000000]
    (by intro d hd; fin_cases hd <;> norm_num) (by norm_num)
  exact ⟨h.1.2, h.2.1 [6000000] ⟨[6000000], rfl⟩ (by simp)⟩

/-! ## C7 / C8 — the design-skeleton item `eat` and `move`
(part_000 lines 87–120, `class Character` skeleton; the inventory operations
`has`/`remove` of its `Inventory` class, part_000 lines 196–248, have exactly
the semantics of `Character.hasItem`/`Character.removeItem` above). -/

/-- An item (economy design, part_001: `interface Item`); only the fields the
skeleton `eat` reads.  `hungerRestore` is optional — food has it, minerals do
not. -/
structure Item where
  type : String
  name : String
  hungerRestore : Option ℚ

structure EatResult where
  success : Bool
  message : String
  hungerRestored : Option ℚ
deriving DecidableEq

/-- Embeds `Character.eat(item)` (design skeleton, part_000 lines 87–104).  The guard
`if (!item.hungerRestore)` is JavaScript falsiness: it rejects an absent
restore value and a restore value of `0` alike, so the test is
`hungerRestore.getD 0 = 0`. -/
def Character.eatItem (c : Character) (item : Item) : Character × EatResult :=
  if item.hungerRestore.getD 0 = 0 then
    (c, { success := false, message := "该物品不可食用", hungerRestored := none })
  else if c.hasItem item.type 1 = false then
    (c, { success := false, message := "库存中没有该物品", hungerRestored := none })
  else
    let restore := item.hungerRestore.getD 0
    let c' := (c.removeItem item.type 1).1
    ({ c' with hunger := min 100 (c'.hunger + restore) },
     { success := true,
       message := "吃了 " ++ item.name ++ "，恢复了 " ++ toString restore ++ " 点饥饿值",
       hungerRestored := some restore })

structure MoveResult where
  success : Bool
  message : String
  fromLoc : Option Location
  toLoc : Option Location
deriving DecidableEq

/-- Embeds `Character.move(newLocation)` (design skeleton, part_000 lines 106–120).
A redundant move returns `{ success: false, message: '已经在该位置' }` and
leaves the state unchanged; otherwise the location is updated and the old/new
pair is returned.  (`from`/`to` are Lean keywords, rendered
`fromLoc`/`toLoc`.) -/
def Character.move (c : Character) (newLocation : Location) : Character × MoveResult :=
  if c.location = newLocation then
    (c, { success := false, message := "已经在该位置", fromLoc := none, toLoc := none })
  else
    ({ c with location := newLocation },
     { success := true,
       message := "从 " ++ c.location.key ++ " 移动到 " ++ newLocation.key,
       fromLoc := some c.location, toLoc := some newLocation })

/-- C7. `eat(item)` fails (with the not-edible outcome, state unchanged)
when the item's hunger-restore value is absent-or-zero, fails (with the
missing-inventory outcome, state unchanged) when the agent does not hold the
item; otherwise it succeeds, removes exactly one unit of the item, raises
hunger by the restore value capped at 100, and leaves money unchanged. -/
theorem eat_item_spec (c : Character) (item : Item) :
    (item.hungerRestore.getD 0 = 0 →
      c.eatItem item =
        (c, { success := false, message := "该物品不可食用", hungerRestored := none }))
    ∧ (item.hungerRestore.getD 0 ≠ 0 → c.hasItem item.type 1 = false →
      c.eatItem item =
        (c, { success := false, message := "库存中没有该物品", hungerRestored := none }))
    ∧ (item.hungerRestore.getD 0 ≠ 0 → c.hasItem item.type 1 = true →
      (c.eatItem item).2.success = true ∧
      (c.eatItem item).1.hunger = min 100 (c.hunger + item.hungerRestore.getD 0) ∧
      assocGetD 0 (c.eatItem item).1.inventory item.type
        = assocGetD 0 c.inventory item.type - 1 ∧
      (c.eatItem item).1.money = c.money) := by
  refine ⟨?_, ?_, ?_⟩
  · intro h
    simp [Character.eatItem, h]
  · intro h hhas
    simp [Character.eatItem, h, hhas]
  · intro h hhas
    have hcur : 1 ≤ assocGetD 0 c.inventory item.type := by
      simpa [Character.hasItem] using hhas
    have hnotlt : ¬ (assocGetD 0 c.inventory item.type < 1) := by omega
    by_cases hone : assocGetD 0 c.inventory item.type - 1 = 0
    · simp [Character.eatItem, h, hhas, Character.removeItem, hnotlt, hone,
        assocGetD_assocDel_self]
    · simp [Character.eatItem, h, hhas, Character.removeItem, hnotlt, hone,
        assocGetD_assocSet_self]

/-- A concrete edible item: wheat restores 15 hunger. -/
def wheatItem : Item := { type := "crop_wheat", name := "小麦", hungerRestore := some 15 }

/-- Witness for C7: an agent holding 2 wheat eats one — success, hunger capped
sum, one unit consumed, money untouched. -/
theorem eat_item_spec_witness :
    (((mkCharacter 20 100 50).addItem "crop_wheat" 2).eatItem wheatItem).2.success = true ∧
    (((mkCharacter 20 100 50).addItem "crop_wheat" 2).eatItem wheatItem).1.hunger =
      min 100 (((mkCharacter 20 100 50).addItem "crop_wheat" 2).hunger +
        wheatItem.hungerRestore.getD 0) ∧
    assocGetD 0 (((mkCharacter 20 100 50).addItem "crop_wheat" 2).eatItem
        wheatItem).1.inventory wheatItem.type
      = assocGetD 0 ((mkCharacter 20 100 50).addItem "crop_wheat" 2).inventory
          wheatItem.type - 1 ∧
    (((mkCharacter 20 100 50).addItem "crop_wheat" 2).eatItem wheatItem).1.money =
      ((mkCharacter 20 100 50).addItem "crop_wheat" 2).money :=
  (eat_item_spec ((mkCharacter 20 100 50).addItem "crop_wheat" 2) wheatItem).2.2
    (by decide) (by decide)

/-- C8 counterexample. A relocate to the agent's current location is *not*
reported as a success: the design skeleton returns `success: false` (an
"already there" failure outcome), refuting the claim that the redundant move is
a no-op *success*.  The state is indeed unchanged. -/
theorem relocate_redundant_not_success :
    ((mkCharacter 20 100 100).move Location.home).2.success = false ∧
    ((mkCharacter 20 100 100).move Location.home).1 = mkCharacter 20 100 100 := by
  exact ⟨rfl, rfl⟩

/-- C8 (amended). `relocate(newLocation)` with the agent's current location
is a no-op that leaves the state unchanged and returns the explicit
redundant-move outcome with `success = false` (not a success); with a different
location it updates the location (and nothing else) and returns the old/new
pair with `success = true`. -/
theorem relocate_spec (c : Character) (newLocation : Location) :
    (c.location = newLocation →
      c.move newLocation =
        (c, { success := false, message := "已经在该位置",
              fromLoc := none, toLoc := none }))
    ∧ (c.location ≠ newLocation →
      c.move newLocation =
        ({ c with location := newLocation },
         { success := true,
           message := "从 " ++ c.location.key ++ " 移动到 " ++ newLocation.key,
           fromLoc := some c.location, toLoc := some newLocation })) := by
  constructor
  · intro h
    simp [Character.move, h]
  · intro h
    simp [Character.move, h]

/-- Witness for C8 (amended): moving the fresh agent from home to the shop
succeeds and lands at the shop. -/
theorem relocate_spec_witness :
    ((mkCharacter 20 100 100).move Location.shop).2.success = true ∧
    ((mkCharacter 20 100 100).move Location.shop).1.location = Location.shop := by
  have h := (relocate_spec (mkCharacter 20 100 100) Location.shop).2 (by decide)
  rw [h]
  exact ⟨rfl, rfl⟩

/-! ## Shop — `class Shop` (part_004 lines 38–156) and the full sell
transaction (docs/systems/economy.md, `Shop.sell(character, itemType, quantity)`). -/

/-- Embeds `enum ItemType` (part_004 lines 5–30). -/
inductive ItemType where
  | cropWheat | cropRice | cropCarrot | cropBeet
  | seedWheat | seedRice | seedCarrot | seedBeet
  | fishCommon | fishRare | fishSilver | fishGolden | fishLegendary
  | mineralCopper | mineralIron | mineralSilver | mineralGold
deriving DecidableEq

/-- The string value of each `ItemType` enum member (the key used in a
character's `Map<string, number>` inventory). -/
def ItemType.key : ItemType → String
  | .cropWheat => "crop_wheat"
  | .cropRice => "crop_rice"
  | .cropCarrot => "crop_carrot"
  | .cropBeet => "crop_beet"
  | .seedWheat => "seed_wheat"
  | .seedRice => "seed_rice"
  | .seedCarrot => "seed_carrot"
  | .seedBeet => "seed_beet"
  | .fishCommon => "fish_common"
  | .fishRare => "fish_rare"
  | .fishSilver => "fish_silver"
  | .fishGolden => "fish_golden"
  | .fishLegendary => "fish_legendary"
  | .mineralCopper => "mineral_copper"
  | .mineralIron => "mineral_iron"
  | .mineralSilver => "mineral_silver"
  | .mineralGold => "mineral_gold"

structure TransactionResult where
  success : Bool
  message : String
  amount : Option ℚ
deriving DecidableEq

/-- The shop's mutable state: both price maps and the stock map
(part_004 lines 39–41). -/
structure Shop where
  buyPrices : ItemType → Option ℚ
  sellPrices : ItemType → Option ℚ
  inventory : List (ItemType × ℕ)

/-- Embeds `initializePrices` buy side (part_004 lines 56–59): seeds only. -/
def initBuyPrices : ItemType → Option ℚ
  | .seedWheat => some 5
  | .seedRice => some 8
  | .seedCarrot => some 3
  | .seedBeet => some 6
  | _ => none

/-- Embeds `initializePrices` sell side (part_004 lines 62–78): crops, fish, minerals. -/
def initSellPrices : ItemType → Option ℚ
  | .cropWheat => some 15
  | .cropRice => some 25
  | .cropCarrot => some 10
  | .cropBeet => some 20
  | .fishCommon => some 8
  | .fishRare => some 20
  | .fishSilver => some 40
  | .fishGolden => some 80
  | .fishLegendary => some 200
  | .mineralCopper => some 15
  | .mineralIron => some 30
  | .mineralSilver => some 60
  | .mineralGold => some 150
  | _ => none

/-- The constructor state (part_004 lines 43–49). -/
def Shop.init : Shop :=
  { buyPrices := initBuyPrices, sellPrices := initSellPrices, inventory := [] }

/-- Embeds `Shop.buy(itemType, quantity, characterMoney)` (part_004 lines 84–108).
The guard `if (!price)` is JavaScript falsiness (absent or zero price); on
success the total cost is returned in `amount` — the method touches no field of
the shop, and the money deduction is the caller's job.  Modelled as a state
transformer to make the frame condition expressible. -/
def Shop.buy (s : Shop) (itemType : ItemType) (quantity : ℕ) (characterMoney : ℚ) :
    Shop × TransactionResult :=
  let price := (s.buyPrices itemType).getD 0
  if price = 0 then
    (s, { success := false, message := "该物品不可购买", amount := none })
  else if characterMoney < price * quantity then
    (s, { success := false, message := "金钱不足", amount := none })
  else
    (s, { success := true, message := "成功购买", amount := some (price * quantity) })

/-- Embeds `Shop.sell(itemType, quantity)` (part_004 lines 113–134): no inventory
check on the seller — computes the earning, credits the shop stock, and leaves
the seller's deduction to the caller. -/
def Shop.sell (s : Shop) (itemType : ItemType) (quantity : ℕ) :
    Shop × TransactionResult :=
  let price := (s.sellPrices itemType).getD 0
  if price = 0 then
    (s, { success := false, message := "该物品不可出售", amount := none })
  else
    ({ s with inventory :=
        assocSet s.inventory itemType (assocGetD 0 s.inventory itemType + quantity) },
     { success := true, message := "成功出售", amount := some (price * quantity) })

/-- The full sell transaction (docs/systems/economy.md, `Shop.sell(character,
itemType, quantity)`): validate the seller's inventory, validate the sell
price, then remove the items, credit the seller's money, and credit the shop
stock.  This is the sell path of the spec's ActionApplier. -/
def sellTransaction (s : Shop) (c : Character) (itemType : ItemType) (quantity : ℕ) :
    Shop × Character × TransactionResult :=
  if c.hasItem itemType.key quantity = false then
    (s, c, { success := false, message := "库存不足", amount := none })
  else
    let sellPrice := (s.sellPrices itemType).getD 0
    if sellPrice = 0 then
      (s, c, { success := false, message := "该物品不可出售", amount := none })
    else
      let totalPrice := sellPrice * quantity
      let c' := (c.removeItem itemType.key quantity).1
      let c'' := { c' with money := c'.money + totalPrice }
      let s' := { s with
        inventory :=
          assocSet s.inventory itemType (assocGetD 0 s.inventory itemType + quantity) }
      (s', c'', { success := true, message := "成功出售", amount := none })

/-- C10. `Shop.buy` performs no state mutation whatsoever — the shop (its
buy prices, sell prices, and stock) is returned unchanged on every path.  It
only validates that the item has a (truthy) buy price and that the given money
covers `price × quantity`, reporting the total cost in `amount` on success and
failing otherwise; the money deduction and the item hand-over are left to the
caller. -/
theorem shop_buy_pure (s : Shop) (itemType : ItemType) (quantity : ℕ)
    (characterMoney : ℚ) :
    (s.buy itemType quantity characterMoney).1 = s
    ∧ ((s.buyPrices itemType).getD 0 = 0 →
        (s.buy itemType quantity characterMoney).2 =
          { success := false, message := "该物品不可购买", amount := none })
    ∧ (∀ p : ℚ, s.buyPrices itemType = some p → p ≠ 0 →
        characterMoney < p * quantity →
        (s.buy itemType quantity characterMoney).2 =
          { success := false, message := "金钱不足", amount := none })
    ∧ (∀ p : ℚ, s.buyPrices itemType = some p → p ≠ 0 →
        ¬ characterMoney < p * quantity →
        (s.buy itemType quantity characterMoney).2 =
          { success := true, message := "成功购买", amount := some (p * quantity) }) := by
  refine ⟨?_, ?_, ?_, ?_⟩
  · by_cases h0 : (s.buyPrices itemType).getD 0 = 0
    · simp [Shop.buy, h0]
    · by_cases hm : characterMoney < (s.buyPrices itemType).getD 0 * quantity
      · simp [Shop.buy, h0, hm]
      · simp [Shop.buy, h0, hm]
  · intro h0
    simp [Shop.buy, h0]
  · intro p hp hne hm
    simp [Shop.buy, hp, hne, hm]
  · intro p hp hne hm
    simp [Shop.buy, hp, hne, hm]

/-- Witness for C10: buying 2 wheat seeds (price 5) with 100 money leaves the
fresh shop unchanged and reports a cost of 10. -/
theorem shop_buy_pure_witness :
    (Shop.init.buy ItemType.seedWheat 2 100).1 = Shop.init ∧
    (Shop.init.buy ItemType.seedWheat 2 100).2 =
      { success := true, message := "成功购买", amount := some 10 } := by
  have h := shop_buy_pure Shop.init ItemType.seedWheat 2 100
  refine ⟨h.1, ?_⟩
  have h4 := h.2.2.2 5 (by rfl) (by norm_num) (by norm_num [Shop.init, initBuyPrices])
  rw [h4]
  norm_num

/-- C4. Selling 3 units of an item with sell price 15 through the full sell
transaction credits the seller exactly 45 and removes exactly 3 units from the
seller's inventory; if the seller holds only 2 units the whole operation fails
as a unit — seller money, seller inventory, and shop stock all unchanged. -/
theorem sell_three_at_fifteen (s : Shop) (c : Character) (itemType : ItemType)
    (hprice : s.sellPrices itemType = some 15) :
    (3 ≤ assocGetD 0 c.inventory itemType.key →
      (sellTransaction s c itemType 3).2.1.money = c.money + 45 ∧
      assocGetD 0 (sellTransaction s c itemType 3).2.1.inventory itemType.key
        = assocGetD 0 c.inventory itemType.key - 3 ∧
      (sellTransaction s c itemType 3).2.2.success = true)
    ∧ (assocGetD 0 c.inventory itemType.key = 2 →
      sellTransaction s c itemType 3 =
        (s, c, { success := false, message := "库存不足", amount := none })) := by
  constructor
  · intro hhold
    have hhas : c.hasItem itemType.key 3 = true := by
      simpa [Character.hasItem] using hhold
    have hnotlt : ¬ (assocGetD 0 c.inventory itemType.key < 3) := by omega
    by_cases hzero : assocGetD 0 c.inventory itemType.key - 3 = 0
    · refine ⟨?_, ?_, ?_⟩ <;>
        simp [sellTransaction, hhas, hprice, Character.removeItem, hnotlt, hzero,
          assocGetD_assocDel_self] <;>
        first
        | exact hzero.symm
        | ring
    · refine ⟨?_, ?_, ?_⟩ <;>
        simp [sellTransaction, hhas, hprice, Character.removeItem, hnotlt, hzero,
          assocGetD_assocSet_self] <;> ring
  · intro hhold
    have hhas : c.hasItem itemType.key 3 = false := by
      simp [Character.hasItem, hhold]
    simp [sellTransaction, hhas]

/-- Witness for C4: an agent holding 5 copper ore sells 3 at price 15 — money
goes from 100 to 145 and 2 units remain; the same sale fails atomically for an
agent holding only 2. -/
theorem sell_three_at_fifteen_witness :
    ((sellTransaction Shop.init ((mkCharacter 20 100 100).addItem "mineral_copper" 5)
        ItemType.mineralCopper 3).2.1.money =
      ((mkCharacter 20 100 100).addItem "mineral_copper" 5).money + 45) ∧
    (sellTransaction Shop.init ((mkCharacter 20 100 100).addItem "mineral_copper" 2)
        ItemType.mineralCopper 3 =
      (Shop.init, (mkCharacter 20 100 100).addItem "mineral_copper" 2,
        { success := false, message := "库存不足", amount := none })) := by
  constructor
  · exact ((sell_three_at_fifteen Shop.init
      ((mkCharacter 20 100 100).addItem "mineral_copper" 5) ItemType.mineralCopper
      rfl).1 (by decide)).1
  · exact (sell_three_at_fifteen Shop.init
      ((mkCharacter 20 100 100).addItem "mineral_copper" 2) ItemType.mineralCopper
      rfl).2 (by decide)

/-! ## C5 — the mining resource pool draw (part_003 lines 209–265) -/

/-- Embeds `pool.minerals`: mineral id → remaining (integer) unit count. -/
abbrev MinePool := List (String × ℕ)

/-- Embeds `getTotalResources(pool)` — total remaining units. -/
def getTotalResources (pool : MinePool) : ℕ := (pool.map Prod.snd).sum

/-- Embeds `calculateDynamicProbabilities(pool)` (part_003 lines 243–265): over the
mineral catalog `rates` (`getMineralById(id).mineRate`), a depleted kind gets
probability `0`; otherwise `base * (count / (total * base))` (the scarcity
factor). -/
def calculateDynamicProbabilities (rates : String → ℚ) (pool : MinePool) :
    List (String × ℚ) :=
  pool.map (fun kv =>
    if kv.2 = 0 then (kv.1, 0)
    else (kv.1, rates kv.1 * (kv.2 / ((getTotalResources pool : ℚ) * rates kv.1))))

/-- The `for (const [mineralId, probability] of probabilities)` loop of
`attemptMine`: accumulate `cumulative`; when `roll * 100 <= cumulative` and the
remaining count is positive, grant the kind and decrement it; otherwise keep
scanning. -/
def mineLoop (pool : MinePool) (roll : ℚ) :
    ℚ → List (String × ℚ) → Option String × MinePool
  | _, [] => (none, pool)
  | cumulative, (mineralId, probability) :: rest =>
    let cumulative' := cumulative + probability
    if roll * 100 ≤ cumulative' then
      if 0 < assocGetD 0 pool mineralId then
        (some mineralId, assocSet pool mineralId (assocGetD 0 pool mineralId - 1))
      else
        mineLoop pool roll cumulative' rest
    else
      mineLoop pool roll cumulative' rest

/-- Embeds `attemptMine(mineId)` (part_003 lines 209–241), with the `Math.random() *
100` draw `roll` passed explicitly; returns the granted mineral id (if any) and
the updated pool. -/
def attemptMine (rates : String → ℚ) (pool : MinePool) (roll : ℚ) :
    Option String × MinePool :=
  if getTotalResources pool = 0 then (none, pool)
  else mineLoop pool roll 0 (calculateDynamicProbabilities rates pool)

/-- A sequence of mining attempts with the given rolls. -/
def mineRun (rates : String → ℚ) (pool : MinePool) :
    List ℚ → List (Option String) × MinePool
  | [] => ([], pool)
  | roll :: rest =>
    let step := attemptMine rates pool roll
    let next := mineRun rates step.2 rest
    (step.1 :: next.1, next.2)

theorem mineLoop_cases (roll : ℚ) (pool : MinePool) :
    ∀ (ps : List (String × ℚ)) (cumulative : ℚ),
      mineLoop pool roll cumulative ps = (none, pool) ∨
      ∃ K, 0 < assocGetD 0 pool K ∧
        mineLoop pool roll cumulative ps =
          (some K, assocSet pool K (assocGetD 0 pool K - 1)) := by
  intro ps
  induction ps with
  | nil => intro cumulative; left; rfl
  | cons p rest ih =>
    intro cumulative
    obtain ⟨mineralId, probability⟩ := p
    simp only [mineLoop]
    by_cases hroll : roll * 100 ≤ cumulative + probability
    · simp only [hroll, if_true]
      by_cases hrem : 0 < assocGetD 0 pool mineralId
      · right
        exact ⟨mineralId, hrem, by simp [hrem]⟩
      · simp only [hrem, if_false]
        exact ih _
    · simp only [hroll, if_false]
      exact ih _

theorem attemptMine_cases (rates : String → ℚ) (pool : MinePool) (roll : ℚ) :
    attemptMine rates pool roll = (none, pool) ∨
    ∃ K, 0 < assocGetD 0 pool K ∧
      attemptMine rates pool roll =
        (some K, assocSet pool K (assocGetD 0 pool K - 1)) := by
  unfold attemptMine
  by_cases h : getTotalResources pool = 0
  · left; simp [h]
  · simp only [h, if_false]
    exact mineLoop_cases roll pool _ 0

/-- Unit conservation: across any roll sequence, the units of kind `K` granted
plus the units of `K` remaining equal the initial count of `K`. -/
theorem mineRun_count (rates : String → ℚ) (K : String) :
    ∀ (rolls : List ℚ) (pool : MinePool),
      (mineRun rates pool rolls).1.count (some K) +
        assocGetD 0 (mineRun rates pool rolls).2 K = assocGetD 0 pool K := by
  intro rolls
  induction rolls with
  | nil => intro pool; simp [mineRun]
  | cons roll rest ih =>
    intro pool
    rcases attemptMine_cases rates pool roll with hstep | ⟨K', hpos, hstep⟩
    · simp only [mineRun, hstep, List.count_cons]
      simpa using ih pool
    · by_cases hKK : K' = K
      · subst hKK
        simp only [mineRun, hstep, List.count_cons]
        have h2 := ih (assocSet pool K' (assocGetD 0 pool K' - 1))
        rw [assocGetD_assocSet_self] at h2
        have hbeq : (some K' == some K') = true := by
          simp
        rw [hbeq, if_pos rfl, Nat.add_right_comm, h2]
        exact Nat.succ_pred_eq_of_pos hpos
      · simp only [mineRun, hstep, List.count_cons]
        have h2 := ih (assocSet pool K' (assocGetD 0 pool K' - 1))
        rw [assocGetD_assocSet_ne 0 pool K' K _ (fun hh => hKK hh.symm)] at h2
        have hbeq : (some K' == some K) = false := by
          simp [hKK]
        rw [hbeq]
        simpa using h2

/-- The scenario catalog: every kind has rarity weight 100
(scenario 2 seeds `weight copper = 100`). -/
def copperRates : String → ℚ := fun _ => 100

/-- The scenario pool: seeded with `copper: 2` only. -/
def copperPool : MinePool := [("copper", 2)]

/-- C5. With the pool seeded `{copper: 2}` (weight 100) and no refresh,
exactly 2 draws of copper can succeed: the rolls `[0, 0]` make two sequential
draws succeed, emptying the pool; afterwards every draw fails (polled total is
zero — the `Depleted`/null outcome) for every roll; and in full generality the
number of units of any kind `K` granted over any roll sequence never exceeds
the kind's initial count. -/
theorem resource_pool_depletion :
    ((mineRun copperRates copperPool [0, 0]).1 = [some "copper", some "copper"] ∧
     (mineRun copperRates copperPool [0, 0]).2 = [("copper", 0)])
    ∧ (∀ roll : ℚ, attemptMine copperRates [("copper", 0)] roll = (none, [("copper", 0)]))
    ∧ (∀ (rates : String → ℚ) (pool : MinePool) (rolls : List ℚ) (K : String),
        (mineRun rates pool rolls).1.count (some K) ≤ assocGetD 0 pool K) := by
  refine ⟨?_, ?_, ?_⟩
  · norm_num [mineRun, attemptMine, copperPool, copperRates, getTotalResources,
      calculateDynamicProbabilities, mineLoop, assocGetD, assocSet]
  · intro roll
    norm_num [attemptMine, getTotalResources]
  · intro rates pool rolls K
    have h := mineRun_count rates K rolls pool
    omega

/-! ## C6 — resource pool refresh (part_003 lines 84–107) -/

/-- Embeds `interface ResourcePool` (part_003 lines 58–63).  The refresh writes
fractional amounts, so the mineral counts are ℚ here; times are in days. -/
structure OrePool where
  minerals : List (String × ℚ)
  totalCapacity : ℚ
  refreshRate : ℚ
  lastRefresh : ℚ

/-- Embeds `ResourcePoolManager.refreshPool(pool, currentTime)` (part_003 lines
85–107): if at least one day has passed since `lastRefresh`, add
`totalCapacity * refreshRate` split 50% / 30% / 15% / 5% onto
copper/iron/silver/gold, each capped (`Math.min`) at its maximum
(100 / 60 / 30 / 10), and set `lastRefresh` to `currentTime`. -/
def refreshPool (pool : OrePool) (currentTime : ℚ) : OrePool :=
  let daysSinceRefresh := currentTime - pool.lastRefresh
  if 1 ≤ daysSinceRefresh then
    let refreshAmount := pool.totalCapacity * pool.refreshRate
    let m1 := assocSet pool.minerals "copper"
      (min (assocGetD 0 pool.minerals "copper" + refreshAmount * (1/2)) 100)
    let m2 := assocSet m1 "iron"
      (min (assocGetD 0 m1 "iron" + refreshAmount * (3/10)) 60)
    let m3 := assocSet m2 "silver"
      (min (assocGetD 0 m2 "silver" + refreshAmount * (3/20)) 30)
    let m4 := assocSet m3 "gold"
      (min (assocGetD 0 m3 "gold" + refreshAmount * (1/20)) 10)
    { pool with minerals := m4, lastRefresh := currentTime }
  else pool

/-- The initial pool configuration (part_003 lines 71–79 give the initial
counts; rate 0.1 per day is a representative configured refresh rate). -/
def initialOrePool : OrePool :=
  { minerals := [("copper", 50), ("iron", 30), ("silver", 15), ("gold", 5)]
    totalCapacity := 200
    refreshRate := 1/10
    lastRefresh := 0 }

/-- C6 counterexample. With `lastRefreshTime = 0`, refresh interval 1 day
and `now = 5/2`, two full intervals have elapsed, so the claim predicts
`lastRefreshTime' = 0 + 2·1 = 2`; the code instead resets it to `now = 5/2`. -/
theorem refresh_resets_last_refresh :
    (refreshPool initialOrePool (5/2)).lastRefresh = 5/2 ∧ (5/2 : ℚ) ≠ 0 + 2 * 1 := by
  constructor
  · simp only [refreshPool]
    rw [if_pos (by norm_num [initialOrePool])]
  · norm_num

/-- C6 (amended). When `refresh(now)` runs with `now − lastRefreshTime ≥ 1`
(the one-day refresh interval), it adds the configured replenishment amount
*once* — `totalCapacity × refreshRate` split 50/30/15/5 percent over
copper/iron/silver/gold — capped at each kind's maximum (100/60/30/10),
regardless of how many full intervals have elapsed, and it *resets*
`lastRefreshTime` to `now` rather than advancing it by the number of full
intervals; each refreshed kind's count never exceeds its maximum afterwards. -/
theorem refresh_spec (pool : OrePool) (now : ℚ)
    (h : 1 ≤ now - pool.lastRefresh) :
    (refreshPool pool now).lastRefresh = now
    ∧ assocGetD 0 (refreshPool pool now).minerals "copper"
        = min (assocGetD 0 pool.minerals "copper"
            + pool.totalCapacity * pool.refreshRate * (1/2)) 100
    ∧ assocGetD 0 (refreshPool pool now).minerals "iron"
        = min (assocGetD 0 pool.minerals "iron"
            + pool.totalCapacity * pool.refreshRate * (3/10)) 60
    ∧ assocGetD 0 (refreshPool pool now).minerals "silver"
        = min (assocGetD 0 pool.minerals "silver"
            + pool.totalCapacity * pool.refreshRate * (3/20)) 30
    ∧ assocGetD 0 (refreshPool pool now).minerals "gold"
        = min (assocGetD 0 pool.minerals "gold"
            + pool.totalCapacity * pool.refreshRate * (1/20)) 10
    ∧ assocGetD 0 (refreshPool pool now).minerals "copper" ≤ 100
    ∧ assocGetD 0 (refreshPool pool now).minerals "iron" ≤ 60
    ∧ assocGetD 0 (refreshPool pool now).minerals "silver" ≤ 30
    ∧ assocGetD 0 (refreshPool pool now).minerals "gold" ≤ 10 := by
  have hic : ("iron" : String) ≠ "copper" := by decide
  have hsc : ("silver" : String) ≠ "copper" := by decide
  have hgc : ("gold" : String) ≠ "copper" := by decide
  have hci : ("copper" : String) ≠ "iron" := by decide
  have hsi : ("silver" : String) ≠ "iron" := by decide
  have hgi : ("gold" : String) ≠ "iron" := by decide
  have hcs : ("copper" : String) ≠ "silver" := by decide
  have his : ("iron" : String) ≠ "silver" := by decide
  have hgs : ("gold" : String) ≠ "silver" := by decide
  have hcg : ("copper" : String) ≠ "gold" := by decide
  have hig : ("iron" : String) ≠ "gold" := by decide
  have hsg : ("silver" : String) ≠ "gold" := by decide
  have hrw : refreshPool pool now = { pool with
      minerals :=
        assocSet (assocSet (assocSet (assocSet pool.minerals "copper"
          (min (assocGetD 0 pool.minerals "copper"
            + pool.totalCapacity * pool.refreshRate * (1/2)) 100)) "iron"
          (min (assocGetD 0 pool.minerals "iron"
            + pool.totalCapacity * pool.refreshRate * (3/10)) 60)) "silver"
          (min (assocGetD 0 pool.minerals "silver"
            + pool.totalCapacity * pool.refreshRate * (3/20)) 30)) "gold"
          (min (assocGetD 0 pool.minerals "gold"
            + pool.totalCapacity * pool.refreshRate * (1/20)) 10)
      lastRefresh := now } := by
    simp only [refreshPool]
    rw [if_pos h]
    rw [assocGetD_assocSet_ne 0 _ "copper" "iron" _ hic,
      assocGetD_assocSet_ne 0 _ "iron" "silver" _ hsi,
      assocGetD_assocSet_ne 0 _ "copper" "silver" _ hsc,
      assocGetD_assocSet_ne 0 _ "silver" "gold" _ hgs,
      assocGetD_assocSet_ne 0 _ "iron" "gold" _ hgi,
      assocGetD_assocSet_ne 0 _ "copper" "gold" _ hgc]
  rw [hrw]
  have hcopper : assocGetD 0 (assocSet (assocSet (assocSet (assocSet pool.minerals
        "copper" (min (assocGetD 0 pool.minerals "copper"
          + pool.totalCapacity * pool.refreshRate * (1/2)) 100)) "iron"
        (min (assocGetD 0 pool.minerals "iron"
          + pool.totalCapacity * pool.refreshRate * (3/10)) 60)) "silver"
        (min (assocGetD 0 pool.minerals "silver"
          + pool.totalCapacity * pool.refreshRate * (3/20)) 30)) "gold"
        (min (assocGetD 0 pool.minerals "gold"
          + pool.totalCapacity * pool.refreshRate * (1/20)) 10)) "copper"
      = min (assocGetD 0 pool.minerals "copper"
          + pool.totalCapacity * pool.refreshRate * (1/2)) 100 := by
    rw [assocGetD_assocSet_ne 0 _ "gold" "copper" _ hcg,
      assocGetD_assocSet_ne 0 _ "silver" "copper" _ hcs,
      assocGetD_assocSet_ne 0 _ "iron" "copper" _ hci,
      assocGetD_assocSet_self]
  have hiron : assocGetD 0 (assocSet (assocSet (assocSet (assocSet pool.minerals
        "copper" (min (assocGetD 0 pool.minerals "copper"
          + pool.totalCapacity * pool.refreshRate * (1/2)) 100)) "iron"
        (min (assocGetD 0 pool.minerals "iron"
          + pool.totalCapacity * pool.refreshRate * (3/10)) 60)) "silver"
        (min (assocGetD 0 pool.minerals "silver"
          + pool.totalCapacity * pool.refreshRate * (3/20)) 30)) "gold"
        (min (assocGetD 0 pool.minerals "gold"
          + pool.totalCapacity * pool.refreshRate * (1/20)) 10)) "iron"
      = min (assocGetD 0 pool.minerals "iron"
          + pool.totalCapacity * pool.refreshRate * (3/10)) 60 := by
    rw [assocGetD_assocSet_ne 0 _ "gold" "iron" _ hig,
      assocGetD_assocSet_ne 0 _ "silver" "iron" _ his,
      assocGetD_assocSet_self]
  have hsilver : assocGetD 0 (assocSet (assocSet (assocSet (assocSet pool.minerals
        "copper" (min (assocGetD 0 pool.minerals "copper"
          + pool.totalCapacity * pool.refreshRate * (1/2)) 100)) "iron"
        (min (assocGetD 0 pool.minerals "iron"
          + pool.totalCapacity * pool.refreshRate * (3/10)) 60)) "silver"
        (min (assocGetD 0 pool.minerals "silver"
          + pool.totalCapacity * pool.refreshRate * (3/20)) 30)) "gold"
        (min (assocGetD 0 pool.minerals "gold"
          + pool.totalCapacity * pool.refreshRate * (1/20)) 10)) "silver"
      = min (assocGetD 0 pool.minerals "silver"
          + pool.totalCapacity * pool.refreshRate * (3/20)) 30 := by
    rw [assocGetD_assocSet_ne 0 _ "gold" "silver" _ hsg,
      assocGetD_assocSet_self]
  have hgold : assocGetD 0 (assocSet (assocSet (assocSet (assocSet pool.minerals
        "copper" (min (assocGetD 0 pool.minerals "copper"
          + pool.totalCapacity * pool.refreshRate * (1/2)) 100)) "iron"
        (min (assocGetD 0 pool.minerals "iron"
          + pool.totalCapacity * pool.refreshRate * (3/10)) 60)) "silver"
        (min (assocGetD 0 pool.minerals "silver"
          + pool.totalCapacity * pool.refreshRate * (3/20)) 30)) "gold"
        (min (assocGetD 0 pool.minerals "gold"
          + pool.totalCapacity * pool.refreshRate * (1/20)) 10)) "gold"
      = min (assocGetD 0 pool.minerals "gold"
          + pool.totalCapacity * pool.refreshRate * (1/20)) 10 :=
    assocGetD_assocSet_self 0 _ "gold" _
  refine ⟨rfl, hcopper, hiron, hsilver, hgold, ?_, ?_, ?_, ?_⟩
  · rw [hcopper]; exact min_le_right _ _
  · rw [hiron]; exact min_le_right _ _
  · rw [hsilver]; exact min_le_right _ _
  · rw [hgold]; exact min_le_right _ _

/-- Witness for C6 (amended): refreshing the initial pool at `now = 3/2` resets
`lastRefresh` to `3/2`, brings copper to `min(50 + 20·0.5, 100) = 60`, and
respects the caps. -/
theorem refresh_spec_witness :
    (refreshPool initialOrePool (3/2)).lastRefresh = 3/2 ∧
    assocGetD 0 (refreshPool initialOrePool (3/2)).minerals "copper" =
      min (assocGetD 0 initialOrePool.minerals "copper"
        + initialOrePool.totalCapacity * initialOrePool.refreshRate * (1/2)) 100 ∧
    assocGetD 0 (refreshPool initialOrePool (3/2)).minerals "gold" ≤ 10 := by
  have h := refresh_spec initialOrePool (3/2) (by norm_num [initialOrePool])
  exact ⟨h.1, h.2.1, h.2.2.2.2.2.2.2.2⟩

/-! ## C3 — `LLMEngine.parseDecision` (part_002 lines 221–239)

The raw provider response string enters `JSON.parse` (a JavaScript builtin,
the environment boundary of the embedding): every response string maps to
either a parse exception — modelled `none` — or a parsed JSON value.  The
`try`/`catch` in `parseDecision` covers both `JSON.parse` and the subsequent
member accesses, so a parsed `null` (whose member access throws a `TypeError`)
also lands in the catch block. -/

/-- A parsed JSON value. -/
inductive Json where
  | str (s : String)
  | num (q : ℚ)
  | bool (b : Bool)
  | null
  | arr (elems : List Json)
  | obj (fields : List (String × Json))

/-- JavaScript truthiness of a (non-undefined) JSON value. -/
def jsTruthy : Json → Bool
  | .str s => s != ""
  | .num q => q != 0
  | .bool b => b
  | .null => false
  | .arr _ => true
  | .obj _ => true

/-- Member access `json.key` on a non-null parsed value: a field of an object,
`undefined` (`none`) otherwise. -/
def jsField : Json → String → Option Json
  | .obj fields, key => fields.lookup key
  | _, _ => none

/-- Embeds `x || default` — the JavaScript or-else on a possibly-undefined value. -/
def jsOr (v : Option Json) (d : Json) : Json :=
  match v with
  | some j => if jsTruthy j then j else d
  | none => d

/-- The `Decision` value built by `parseDecision`: `action` is `json.action`
verbatim (possibly `undefined` = `none`); the remaining fields get `||`
defaults. -/
structure Decision where
  action : Option Json
  reasoning : Json
  emotion : Json
  internalThought : Json

/-- The fixed decision returned by the `catch` branch (part_002 lines
231–238): `ActionType.WALK` with the fixed explanatory strings. -/
def fallbackDecision : Decision :=
  { action := some (.str "walk")
    reasoning := .str "解析错误，随机行走"
    emotion := .str "confused"
    internalThought := .str "我不知道该做什么..." }

/-- Embeds `LLMEngine.parseDecision(response)` (part_002 lines 221–239) over the
`JSON.parse` outcome: a parse exception or a parsed `null` (member access
throws) is caught and yields the fallback; any other parsed value has its
`action` field passed through unchecked and `||` defaults applied to the other
fields. -/
def parseDecision : Option Json → Decision
  | none => fallbackDecision
  | some .null => fallbackDecision
  | some json =>
    { action := jsField json "action"
      reasoning := jsOr (jsField json "reasoning") (.str "")
      emotion := jsOr (jsField json "emotion") (.str "neutral")
      internalThought := jsOr (jsField json "internalThought") (.str "") }

/-- The closed enumerated action set: the union of the action identifiers of
the repository's action enums (`ActionType` in docs/architecture.md lines
311–324 and docs/systems/characters.md lines 361–377) and the rule-based
fallback actions of docs/systems/llm.md. -/
def actionSet : List String :=
  ["sleep", "wake_up", "eat", "walk", "plant", "harvest", "fish", "mine",
   "buy", "sell", "talk", "join_hall_event",
   "idle", "walking", "sleeping", "farming", "fishing", "mining",
   "buying", "selling", "eating", "talking", "hall_event",
   "eat_food", "go_fishing", "respond", "next_action"]

/-- C3 counterexample. The well-formed payload
`{"action": "fly_to_moon"}` parses successfully; `parseDecision` passes the
out-of-set action `"fly_to_moon"` straight through instead of taking the
fallback path — refuting the claim that a well-formed payload with an action
outside the closed enumerated set is treated like a malformed one. -/
theorem parse_decision_passes_unknown_action :
    parseDecision (some (Json.obj [("action", Json.str "fly_to_moon")])) =
      { action := some (.str "fly_to_moon")
        reasoning := .str ""
        emotion := .str "neutral"
        internalThought := .str "" }
    ∧ "fly_to_moon" ∉ actionSet
    ∧ (parseDecision (some (Json.obj [("action", Json.str "fly_to_moon")]))).action
        ≠ fallbackDecision.action := by
  refine ⟨rfl, by decide, ?_⟩
  intro h
  have h2 : Json.str "fly_to_moon" = Json.str "walk" := Option.some.inj h
  have h3 : ("fly_to_moon" : String) = "walk" := by
    injection h2
  exact absurd h3 (by decide)

/-- C3 (amended). `parseDecision` is total (never crashes) and: a
non-parseable payload — and a parsed `null`, whose member access throws inside
the same `try` — yields the fixed deterministic fallback decision
(`ActionType.WALK`); every other parsed payload has its `action` field passed
through entirely unvalidated (it may lie outside the closed enumerated action
set), with `||` defaults on the remaining fields. -/
theorem parse_decision_spec (parsed : Option Json) :
    (parsed = none → parseDecision parsed = fallbackDecision)
    ∧ (parsed = some .null → parseDecision parsed = fallbackDecision)
    ∧ (∀ fields, parsed = some (Json.obj fields) →
        (parseDecision parsed).action = fields.lookup "action")
    ∧ (∀ json, parsed = some json → json ≠ .null → ¬ (∃ fields, json = Json.obj fields) →
        (parseDecision parsed).action = none) := by
  refine ⟨?_, ?_, ?_, ?_⟩
  · intro h
    rw [h]
    rfl
  · intro h
    rw [h]
    rfl
  · intro fields h
    rw [h]
    cases fields with
    | nil => rfl
    | cons kv rest => rfl
  · intro json h hnull hobj
    rw [h]
    cases json with
    | str s => rfl
    | num q => rfl
    | bool b => rfl
    | null => exact absurd rfl hnull
    | arr elems => rfl
    | obj fields => exact absurd ⟨fields, rfl⟩ hobj

/-- Witness for C3 (amended): a failed parse yields the fallback, and the
pass-through clause applied to the counterexample payload returns its raw
action field. -/
theorem parse_decision_spec_witness :
    parseDecision none = fallbackDecision ∧
    (parseDecision (some (Json.obj [("action", Json.str "walk")]))).action =
      List.lookup "action" [("action", Json.str "walk")] :=
  ⟨(parse_decision_spec none).1 rfl,
   (parse_decision_spec (some (Json.obj [("action", Json.str "walk")]))).2.2.1
     [("action", Json.str "walk")] rfl⟩

/-! ## C9 — `class Relationship` (part_000 lines 344–413) -/

inductive RelationshipType where
  | stranger
  | acquaintance
  | friend
  | closeFriend
  | enemy
deriving DecidableEq

inductive SocialEventType where
  | friendlyChat
  | cooperation
  | betrayal
  | argument
  | giftExchange
  | werewolfGame
deriving DecidableEq

structure SocialEvent where
  type : SocialEventType
  impact : ℚ

structure SharedMemory where
  event : SocialEventType
  timestamp : ℚ
  impact : ℚ

structure Relationship where
  targetId : String
  trust : ℚ
  affection : ℚ
  interactions : ℕ
  lastInteraction : ℚ
  relationshipType : RelationshipType
  memories : List SharedMemory

/-- The constructor state (part_000 lines 353–361). -/
def Relationship.init (targetId : String) : Relationship :=
  { targetId := targetId
    trust := 0
    affection := 0
    interactions := 0
    lastInteraction := 0
    relationshipType := .stranger
    memories := [] }

/-- Embeds `clamp(v, lo, hi)`. -/
def clamp (v lo hi : ℚ) : ℚ := max lo (min hi v)

/-- Embeds `Relationship.updateRelationshipType()` (part_000 lines 398–408): the
threshold chain, which *retains the previous value* when no branch fires. -/
def updateRelationshipType (trust affection : ℚ) (interactions : ℕ)
    (current : RelationshipType) : RelationshipType :=
  if 7/10 < trust ∧ 7/10 < affection then .closeFriend
  else if 3/10 < trust ∨ 3/10 < affection then .friend
  else if trust < -(3/10) ∨ affection < -(3/10) then .enemy
  else if 5 < interactions then .acquaintance
  else current

/-- The classification as the spec describes it: a *pure* threshold function of
the current axes and interaction count, independent of history (falling back to
`stranger` when no threshold fires).  Stated from the spec's words for
comparison against the source's `updateRelationshipType`. -/
def pureClassification (trust affection : ℚ) (interactions : ℕ) : RelationshipType :=
  if 7/10 < trust ∧ 7/10 < affection then .closeFriend
  else if 3/10 < trust ∨ 3/10 < affection then .friend
  else if trust < -(3/10) ∨ affection < -(3/10) then .enemy
  else if 5 < interactions then .acquaintance
  else .stranger

/-- Embeds `Relationship.update(event)` (part_000 lines 363–396): bump the interaction
count and timestamp (`Date.now()` modelled as an explicit `now`), apply the
per-event trust/affection deltas (the source lists `FRIENDLY_CHAT`, `BETRAYAL`
and `COOPERATION` and elides further kinds with a no-delta default), clamp both
axes to `[-1, 1]`, recompute the relationship type, and append a memory. -/
def Relationship.update (r : Relationship) (event : SocialEvent) (now : ℚ) :
    Relationship :=
  let interactions' := r.interactions + 1
  let raw : ℚ × ℚ :=
    match event.type with
    | .friendlyChat => (r.trust + 1/20, r.affection + 1/20)
    | .betrayal => (r.trust - 3/10, r.affection - 1/5)
    | .cooperation => (r.trust + 1/10, r.affection)
    | _ => (r.trust, r.affection)
  let trust' := clamp raw.1 (-1) 1
  let affection' := clamp raw.2 (-1) 1
  { r with
    interactions := interactions'
    lastInteraction := now
    trust := trust'
    affection := affection'
    relationshipType :=
      updateRelationshipType trust' affection' interactions' r.relationshipType
    memories := r.memories ++ [{ event := event.type, timestamp := now, impact := event.impact }] }

def coopEvent : SocialEvent := { type := .cooperation, impact := 0 }

def betrayalEvent : SocialEvent := { type := .betrayal, impact := 0 }

/-- Four cooperations (trust `0.4`, classified `friend`) followed by one
betrayal (trust `0.1`, affection `-0.2` — inside the neutral zone). -/
def staleExample : Relationship :=
  List.foldl (fun r e => r.update e 0) (Relationship.init "target")
    [coopEvent, coopEvent, coopEvent, coopEvent, betrayalEvent]

/-- C9 counterexample. A reachable relationship state whose stored
classification is stale: after four cooperations and a betrayal the axes are
back in the neutral zone (`trust = 0.1`, `affection = -0.2`, 5 interactions),
so the pure threshold function yields `stranger`, yet the stored classification
remains `friend` — the derived classification does carry history information
beyond the axes, refuting the claim. -/
theorem relationship_classification_stale :
    staleExample.relationshipType = .friend ∧
    pureClassification staleExample.trust staleExample.affection
      staleExample.interactions = .stranger ∧
    staleExample.relationshipType ≠
      pureClassification staleExample.trust staleExample.affection
        staleExample.interactions := by
  have h1 : staleExample.relationshipType = .friend := by
    norm_num [staleExample, Relationship.update, Relationship.init, coopEvent,
      betrayalEvent, clamp, updateRelationshipType]
  have h2 : pureClassification staleExample.trust staleExample.affection
      staleExample.interactions = .stranger := by
    norm_num [staleExample, Relationship.update, Relationship.init, coopEvent,
      betrayalEvent, clamp, pureClassification]
  refine ⟨h1, h2, ?_⟩
  rw [h1, h2]
  decide

theorem updateRelationshipType_eq_pure (trust affection : ℚ) (interactions : ℕ)
    (current : RelationshipType) :
    (pureClassification trust affection interactions ≠ .stranger →
      updateRelationshipType trust affection interactions current =
        pureClassification trust affection interactions)
    ∧ (pureClassification trust affection interactions = .stranger →
      updateRelationshipType trust affection interactions current = current) := by
  unfold updateRelationshipType pureClassification
  by_cases h1 : 7/10 < trust ∧ 7/10 < affection
  · simp [h1]
  · simp only [h1, if_false]
    by_cases h2 : 3/10 < trust ∨ 3/10 < affection
    · simp [h2]
    · simp only [h2, if_false]
      by_cases h3 : trust < -(3/10) ∨ affection < -(3/10)
      · simp [h3]
      · simp only [h3, if_false]
        by_cases h4 : 5 < interactions
        · simp [h4]
        · simp [h4]

/-- C9 (amended). After every `update` (applyEvent), whenever any threshold
rule fires on the post-state axes — i.e. the pure threshold classification is
not `stranger` — the stored classification equals that pure function of the
current trust, affection and interaction count; when every threshold test
fails, the *previous* classification is retained, so the stored classification
can be stale relative to the axes (witnessed by the counterexample above). -/
theorem relationship_classification_spec (r : Relationship) (event : SocialEvent)
    (now : ℚ) :
    (pureClassification (r.update event now).trust (r.update event now).affection
        (r.update event now).interactions ≠ .stranger →
      (r.update event now).relationshipType =
        pureClassification (r.update event now).trust (r.update event now).affection
          (r.update event now).interactions)
    ∧ (pureClassification (r.update event now).trust (r.update event now).affection
        (r.update event now).interactions = .stranger →
      (r.update event now).relationshipType = r.relationshipType) := by
  have hrel : (r.update event now).relationshipType =
      updateRelationshipType (r.update event now).trust (r.update event now).affection
        (r.update event now).interactions r.relationshipType := rfl
  have key := updateRelationshipType_eq_pure (r.update event now).trust
    (r.update event now).affection (r.update event now).interactions r.relationshipType
  exact ⟨fun h => hrel.trans (key.1 h), fun h => hrel.trans (key.2 h)⟩

/-- Witness for C9 (amended): one cooperation from the initial state lands in
the neutral zone (`trust = 0.1`), so the stored type stays `stranger` — the
retained previous classification. -/
theorem relationship_classification_spec_witness :
    ((Relationship.init "target").update coopEvent 0).relationshipType =
      (Relationship.init "target").relationshipType := by
  apply (relationship_classification_spec (Relationship.init "target") coopEvent 0).2
  norm_num [Relationship.update, Relationship.init, coopEvent, clamp,
    pureClassification]
